import Mathlib

/-!
A shallow embedding of the `Table<T>` flat-buffer matrix from `src/table.rs`
(crate `pharetra`), together with proofs about its layout-aware accessors,
constructors and structural mutations.

Rust `Vec<T>` is modelled as `List α`, `usize` as `Nat`, `&str`/`String` as
`String`.  Fallible operations return `Except TableError _` exactly where the
Rust does; operations whose Rust body can panic (slice indexing out of bounds,
`Vec::remove` past the end, `%` with divisor 0) return a `RunResult`, whose
`panic` constructor marks the panic.  Mutating methods take the table and
return the new table next to the Rust return value.
-/

/-- Outcome of running a Rust function that may panic: either a normal return
value or a panic (out-of-bounds slice, division by zero, ...). -/
inductive RunResult (α : Type) where
  | panicked : RunResult α
  | ret : α → RunResult α
deriving DecidableEq, Repr

/-- Rust slice indexing `&v[a..b]`: panics unless `a ≤ b` and `b ≤ v.len()`,
otherwise yields the elements at positions `a, a+1, ..., b-1`. -/
def sliceIdx {α : Type} (l : List α) (a b : Nat) : RunResult (List α) :=
  if a ≤ b ∧ b ≤ l.length then RunResult.ret ((l.take b).drop a) else RunResult.panicked

/-- Splits a character list at every occurrence of `sep`, with the semantics of
Rust `str::split`: the empty string yields one empty piece, `";"` yields two. -/
def splitChar (sep : Char) : List Char → List (List Char)
  | [] => [[]]
  | c :: rest =>
    if c = sep then [] :: splitChar sep rest
    else
      match splitChar sep rest with
      | [] => [[c]]
      | g :: gs => (c :: g) :: gs

/-- Rust `str::repeat`: the string concatenated with itself `n` times. -/
def strRepeat (s : String) (n : Nat) : String :=
  String.mk (List.flatten (List.replicate n s.data))

/-- The descriptions-initialization expression shared by `new_sized`,
`from_vec` and `from_vec_with_order`:
`Vec::from_iter("".repeat(num_cols).split(';').map(|s| s.to_string()))`.
Note `"".repeat(n)` is `""` for every `n`, and `"".split(';')` yields exactly
one (empty) piece, so this list always has length 1. -/
def descInit (num_cols : Nat) : List String :=
  (splitChar ';' (strRepeat "" num_cols).data).map (fun cs => String.mk cs)

deriving instance DecidableEq for Except

/-- `TableError` from `src/table.rs`. -/
inductive TableError where
  | InvalidNumberOfColumns
  | InvalidNumberOfColumnNames
  | InvalidNumberOfElements
deriving DecidableEq, Repr

/-- `Order` from `src/table.rs`; the derived `Default` is `RowMajor`. -/
inductive Order where
  | RowMajor
  | ColumnMajor
deriving DecidableEq, Repr

/-- `Order::swap`, written as a pure function on the tag. -/
def Order.swap : Order → Order
  | Order.RowMajor => Order.ColumnMajor
  | Order.ColumnMajor => Order.RowMajor

/-- `Table<T>` from `src/table.rs`. -/
structure Table (α : Type) where
  col_names : List String
  descriptions : List String
  data : List α
  num_cols : Nat
  num_rows : Nat
  order : Order
deriving DecidableEq, Repr

namespace Table

/-- `Table::new`. -/
def new (α : Type) : Table α :=
  { col_names := [], descriptions := [], data := [],
    num_cols := 0, num_rows := 0, order := Order.RowMajor }

/-- `Table::new_sized`: `vec![T::default(); num_cols * num_rows]` with the
column-name length check; `T::default()` is `default`.  No operation in the
Rust body panics (Nat model of `usize`), so the result is a plain `Except`. -/
def new_sized {α : Type} [Inhabited α] (num_cols num_rows : Nat)
    (col_names : List String) : Except TableError (Table α) :=
  if col_names.length ≠ num_cols then Except.error TableError.InvalidNumberOfColumnNames
  else Except.ok
    { col_names := col_names,
      descriptions := descInit num_cols,
      data := List.replicate (num_cols * num_rows) default,
      num_cols := num_cols,
      num_rows := num_rows,
      order := Order.RowMajor }

/-- `Table::from_vec`.  The first Rust statement evaluates
`data.len() % num_cols`, which panics when `num_cols == 0`. -/
def from_vec {α : Type} (data : List α) (num_cols : Nat) (col_names : List String) :
    RunResult (Except TableError (Table α)) :=
  if num_cols = 0 then RunResult.panicked
  else if data.length % num_cols ≠ 0 then
    RunResult.ret (Except.error TableError.InvalidNumberOfColumns)
  else if col_names.length ≠ num_cols then
    RunResult.ret (Except.error TableError.InvalidNumberOfColumnNames)
  else RunResult.ret (Except.ok
    { col_names := col_names,
      descriptions := descInit num_cols,
      data := data,
      num_cols := num_cols,
      num_rows := data.length / num_cols,
      order := Order.RowMajor })

/-- `Table::from_vec_with_order`: same as `from_vec` but with a caller-chosen
`order` and, notably, no check of `col_names.len()` against `num_cols`. -/
def from_vec_with_order {α : Type} (data : List α) (num_cols : Nat)
    (col_names : List String) (order : Order) :
    RunResult (Except TableError (Table α)) :=
  if num_cols = 0 then RunResult.panicked
  else if data.length % num_cols ≠ 0 then
    RunResult.ret (Except.error TableError.InvalidNumberOfColumns)
  else RunResult.ret (Except.ok
    { col_names := col_names,
      descriptions := descInit num_cols,
      data := data,
      num_cols := num_cols,
      num_rows := data.length / num_cols,
      order := order })

/-- `Table::col`: bound-check the index, scale it by `num_rows` only in
`ColumnMajor` order, then take the slice `data[col..col + num_rows]`. -/
def col {α : Type} (t : Table α) (col : Nat) : RunResult (Option (List α)) :=
  if col ≥ t.num_cols then RunResult.ret none
  else
    let col2 := if t.order = Order.ColumnMajor then col * t.num_rows else col
    match sliceIdx t.data col2 (col2 + t.num_rows) with
    | RunResult.panicked => RunResult.panicked
    | RunResult.ret s => RunResult.ret (some s)

/-- `Table::row`: bound-check the index, scale it by `num_cols` only in
`RowMajor` order, then take the slice `data[row..row + num_cols]`. -/
def row {α : Type} (t : Table α) (row : Nat) : RunResult (Option (List α)) :=
  if row ≥ t.num_rows then RunResult.ret none
  else
    let row2 := if t.order = Order.RowMajor then row * t.num_cols else row
    match sliceIdx t.data row2 (row2 + t.num_cols) with
    | RunResult.panicked => RunResult.panicked
    | RunResult.ret s => RunResult.ret (some s)

/-- `Table::get`: bound-check both coordinates, scale `row` by `num_cols` in
`RowMajor` order or else `col` by `num_rows`, then read `data[row + col]`. -/
def get {α : Type} (t : Table α) (row col : Nat) : RunResult (Option α) :=
  if row ≥ t.num_rows ∨ col ≥ t.num_cols then RunResult.ret none
  else
    let row2 := if t.order = Order.RowMajor then row * t.num_cols else row
    let col2 := if t.order = Order.RowMajor then col else col * t.num_rows
    match t.data[row2 + col2]? with
    | some v => RunResult.ret (some v)
    | none => RunResult.panicked

/-- `Table::set`: same bound checks and offset as `get`, then
`mem::replace(&mut self.data[row + col], value)`; returns the old value and
the updated table. -/
def set {α : Type} (t : Table α) (row col : Nat) (value : α) :
    RunResult (Option α × Table α) :=
  if row ≥ t.num_rows ∨ col ≥ t.num_cols then RunResult.ret (none, t)
  else
    let row2 := if t.order = Order.RowMajor then row * t.num_cols else row
    let col2 := if t.order = Order.RowMajor then col else col * t.num_rows
    match t.data[row2 + col2]? with
    | some old =>
        RunResult.ret (some old, { t with data := t.data.set (row2 + col2) value })
    | none => RunResult.panicked

/-- `Table::set_col`.  The Rust body applies `mem::replace` to
`&mut self.data[col..col + self.num_rows].to_vec()` — a temporary `Vec`
produced by `.to_vec()` — so the table's buffer is never written: the method
returns the copied window and leaves `self` unchanged. -/
def set_col {α : Type} (t : Table α) (col : Nat) (col_data : List α) :
    RunResult (Option (List α) × Table α) :=
  if col ≥ t.num_cols ∨ col_data.length ≠ t.num_rows then RunResult.ret (none, t)
  else
    let col2 := if t.order = Order.ColumnMajor then col * t.num_rows else col
    match sliceIdx t.data col2 (col2 + t.num_rows) with
    | RunResult.panicked => RunResult.panicked
    | RunResult.ret old => RunResult.ret (some old, t)

/-- `Table::set_row`: symmetric to `set_col`, with the same
`mem::replace`-on-a-temporary behaviour (no mutation of `data`). -/
def set_row {α : Type} (t : Table α) (row : Nat) (row_data : List α) :
    RunResult (Option (List α) × Table α) :=
  if row ≥ t.num_rows ∨ row_data.length ≠ t.num_cols then RunResult.ret (none, t)
  else
    let row2 := if t.order = Order.RowMajor then row * t.num_cols else row
    match sliceIdx t.data row2 (row2 + t.num_cols) with
    | RunResult.panicked => RunResult.panicked
    | RunResult.ret old => RunResult.ret (some old, t)

/-- `Table::transpose`: flip `order`, swap `num_cols` and `num_rows`. -/
def transpose {α : Type} (t : Table α) : Table α :=
  { t with order := t.order.swap, num_cols := t.num_rows, num_rows := t.num_cols }

/-- `Table::push_col`: appends name, buffer tail, empty description. -/
def push_col {α : Type} (t : Table α) (name : String) (col : List α) :
    Except TableError (Table α) :=
  if col.length ≠ t.num_rows then Except.error TableError.InvalidNumberOfElements
  else Except.ok
    { t with col_names := t.col_names ++ [name],
             data := t.data ++ col,
             num_cols := t.num_cols + 1,
             descriptions := t.descriptions ++ [""] }

/-- `Table::push_row`: appends `row` to the buffer tail, increments
`num_rows`. -/
def push_row {α : Type} (t : Table α) (row : List α) : Except TableError (Table α) :=
  if row.length ≠ t.num_cols then Except.error TableError.InvalidNumberOfElements
  else Except.ok { t with data := t.data ++ row, num_rows := t.num_rows + 1 }

/-- `Table::remove_col`.  After scaling `col` (in `ColumnMajor` order) the Rust
body drains `data[col..col + num_rows]` and then calls
`col_names.remove(col)` and `descriptions.remove(col)` with the *scaled*
index; `Vec::remove` panics when the index is not below the vector length. -/
def remove_col {α : Type} (t : Table α) (col : Nat) :
    RunResult (Option (List α) × Table α) :=
  if col ≥ t.num_cols then RunResult.ret (none, t)
  else
    let col2 := if t.order = Order.ColumnMajor then col * t.num_rows else col
    match sliceIdx t.data col2 (col2 + t.num_rows) with
    | RunResult.panicked => RunResult.panicked
    | RunResult.ret out_col =>
      if col2 < t.col_names.length then
        if col2 < t.descriptions.length then
          RunResult.ret (some out_col,
            { t with data := t.data.take col2 ++ t.data.drop (col2 + t.num_rows),
                     col_names := t.col_names.eraseIdx col2,
                     descriptions := t.descriptions.eraseIdx col2,
                     num_cols := t.num_cols - 1 })
        else RunResult.panicked
      else RunResult.panicked

/-- `Table::remove_row`: scale `row` (in `RowMajor` order), decrement
`num_rows`, drain `data[row..row + num_cols]`. -/
def remove_row {α : Type} (t : Table α) (row : Nat) :
    RunResult (Option (List α) × Table α) :=
  if row ≥ t.num_rows then RunResult.ret (none, t)
  else
    let row2 := if t.order = Order.RowMajor then row * t.num_cols else row
    match sliceIdx t.data row2 (row2 + t.num_cols) with
    | RunResult.panicked => RunResult.panicked
    | RunResult.ret out =>
      RunResult.ret (some out,
        { t with data := t.data.take row2 ++ t.data.drop (row2 + t.num_cols),
                 num_rows := t.num_rows - 1 })

end Table

/-- The `3 × 2` row-major table `from_vec(vec![1,2,3,4,5,6], 3, ["a","b","c"])`
produces (note the single-element `descriptions`, see `descInit`). -/
def tC1 : Table Nat :=
  { col_names := ["a", "b", "c"], descriptions := [""],
    data := [1, 2, 3, 4, 5, 6], num_cols := 3, num_rows := 2,
    order := Order.RowMajor }

/-- The `2 × 2` column-major table produced by
`from_vec_with_order(vec![1,2,3,4], 2, ["a","b"], ColumnMajor)`. -/
def tCM : Table Nat :=
  { col_names := ["a", "b"], descriptions := [""],
    data := [1, 2, 3, 4], num_cols := 2, num_rows := 2,
    order := Order.ColumnMajor }

/-- The `3 × 2` row-major table `new_sized(3, 2, ["a","b","c"])` produces. -/
def tC3 : Table Nat :=
  { col_names := ["a", "b", "c"], descriptions := [""],
    data := [0, 0, 0, 0, 0, 0], num_cols := 3, num_rows := 2,
    order := Order.RowMajor }

/-- A structurally valid `3 × 0` row-major table, as produced by
`new_sized(3, 0, ["a","b","c"])`: `data` is empty and
`data.len() == num_cols * num_rows` holds. -/
def tC10 : Table Nat :=
  { col_names := ["a", "b", "c"], descriptions := [""],
    data := [], num_cols := 3, num_rows := 0,
    order := Order.RowMajor }

/- Arithmetic helper lemmas about the layout-aware offsets. -/

/-- The physical offset of an in-range logical cell is inside the buffer under
either layout. -/
theorem offset_lt_of_lt (ord : Order) {nc nr r c : Nat} (hr : r < nr) (hc : c < nc) :
    (if ord = Order.RowMajor then r * nc else r) +
      (if ord = Order.RowMajor then c else c * nr) < nc * nr := by
  have key : ∀ a b x y : Nat, x < a → y < b → x * b + y < b * a := by
    intro a b x y hx hy
    have h2 : x * b + y < (x + 1) * b := by
      rw [Nat.succ_mul]
      exact Nat.add_lt_add_left hy _
    refine Nat.lt_of_lt_of_le h2 ?_
    rw [Nat.mul_comm b a]
    exact Nat.mul_le_mul_right b hx
  cases ord with
  | RowMajor => simpa using key nr nc r c hr hc
  | ColumnMajor => simpa [Nat.add_comm, Nat.mul_comm nr nc] using key nc nr c r hc hr

/-- A window of length `k` starting at a scaled index `i * k` with `i < n`
stays inside a buffer of length `k * n`. -/
theorem scaled_window_le {i n : Nat} (k : Nat) (hi : i < n) : i * k + k ≤ k * n := by
  rw [Nat.mul_comm k n]
  have h : (i + 1) * k ≤ n * k := Nat.mul_le_mul_right k hi
  simpa [Nat.succ_mul] using h

/-- A window of length `k` starting at an unscaled index `i < n` stays inside
a buffer of length `k * n`, provided `1 ≤ k`. -/
theorem unscaled_window_le {i n k : Nat} (hi : i < n) (hk : 1 ≤ k) : i + k ≤ k * n := by
  obtain ⟨m, rfl⟩ : ∃ m, n = m + 1 := ⟨n - 1, by omega⟩
  have h3 : m ≤ k * m := Nat.le_mul_of_pos_left m hk
  calc i + k ≤ m + k := Nat.add_le_add_right (by omega) k
    _ ≤ k * m + k := Nat.add_le_add_right h3 k
    _ = k * (m + 1) := by rw [Nat.mul_add, Nat.mul_one]

/-- Evaluating `sliceIdx` when the range is in bounds. -/
theorem sliceIdx_ret {α : Type} {l : List α} {a b : Nat} (h1 : a ≤ b) (h2 : b ≤ l.length) :
    sliceIdx l a b = RunResult.ret ((l.take b).drop a) := by
  simp [sliceIdx, h1, h2]

/-- C1.  On the row-major `3 × 2` table built by
`from_vec(vec![1,2,3,4,5,6], 3, ["a","b","c"])`, `row(0)` is the first 3
physical elements and `row(1)` the next 3 — but `col(0)` is the contiguous
window `data[0..2]` at physical offsets {0, 1} (values `[1, 2]`), not the
elements at offsets {0, 3} (values 1 and 4) that the layout-aware formula of
invariant 3 prescribes: `Table::col` skips the stride in the non-natural
layout. -/
theorem C1_row_col_eval :
    Table.from_vec [1, 2, 3, 4, 5, 6] 3 ["a", "b", "c"] = RunResult.ret (Except.ok tC1) ∧
    tC1.row 0 = RunResult.ret (some [1, 2, 3]) ∧
    tC1.row 1 = RunResult.ret (some [4, 5, 6]) ∧
    tC1.col 0 = RunResult.ret (some [1, 2]) ∧
    tC1.data[0]? = some 1 ∧ tC1.data[3]? = some 4 ∧
    tC1.col 0 ≠ RunResult.ret (some [1, 4]) := by decide

/-- C2.  `set_col` and `set_row` apply `mem::replace` to a temporary vector
created by `.to_vec()`, so they return the old window but leave the table —
in particular its `data` buffer — completely unchanged: after
`set_col(0, [10, 20])` the table still reads `col(0) = [1, 2]`. -/
theorem C2_set_col_row_eval :
    tC1.set_col 0 [10, 20] = RunResult.ret (some [1, 2], tC1) ∧
    tC1.set_row 0 [7, 8, 9] = RunResult.ret (some [1, 2, 3], tC1) ∧
    tC1.col 0 = RunResult.ret (some [1, 2]) ∧
    tC1.row 0 = RunResult.ret (some [1, 2, 3]) := by decide

/-- C3.  `new_sized(3, 2, ["a","b","c"])` initializes `descriptions` from
`"".repeat(num_cols).split(';')`, which always yields exactly one empty
string: the resulting table has `descriptions.len() = 1 ≠ 3 = num_cols`,
violating invariant 2 (the `col_names` half does hold). -/
theorem C3_descriptions_eval :
    (Table.new_sized 3 2 ["a", "b", "c"] : Except TableError (Table Nat)) = Except.ok tC3 ∧
    tC3.descriptions = [""] ∧
    tC3.descriptions.length = 1 ∧
    tC3.num_cols = 3 ∧
    tC3.col_names.length = 3 ∧
    descInit 0 = [""] ∧ descInit 5 = [""] := by decide

/-- C4.  `remove_col` drains the contiguous window `data[col..col+num_rows]`
(not the logical column in row-major order) and then calls
`col_names.remove` / `descriptions.remove` with the already-scaled index:
on the row-major table, `remove_col(0)` returns `[1, 2]` although logical
column 0 is `[1, 4]`, and `remove_col(1)` panics inside
`descriptions.remove(1)` (descriptions has length 1); on the column-major
table, `remove_col(1)` panics inside `col_names.remove(2)`. -/
theorem C4_remove_col_eval :
    Table.from_vec_with_order [1, 2, 3, 4] 2 ["a", "b"] Order.ColumnMajor =
      RunResult.ret (Except.ok tCM) ∧
    tC1.remove_col 0 = RunResult.ret (some [1, 2],
      { col_names := ["b", "c"], descriptions := [], data := [3, 4, 5, 6],
        num_cols := 2, num_rows := 2, order := Order.RowMajor }) ∧
    tC1.get 0 0 = RunResult.ret (some 1) ∧ tC1.get 1 0 = RunResult.ret (some 4) ∧
    tC1.remove_col 1 = RunResult.panicked ∧
    tCM.remove_col 1 = RunResult.panicked := by decide

/-- C5 counterexample.  `from_vec(vec![], 0, vec![])` panics: the Rust body
evaluates `data.len() % num_cols` with `num_cols == 0`, a divide-by-zero
panic, so the constructors do not return a `TableError` for every input. -/
theorem C5_counterexample :
    Table.from_vec ([] : List Nat) 0 [] = RunResult.panicked ∧
    Table.from_vec_with_order ([] : List Nat) 0 [] Order.RowMajor = RunResult.panicked := by
  decide

/-- C5 (amended).  For every `num_cols ≥ 1`, `from_vec` and
`from_vec_with_order` never panic: they return either a table or a
`TableError` to the caller (`new_sized` contains no panicking operation at
all, so it is modelled as total). -/
theorem C5_no_panic {α : Type} (data : List α) (num_cols : Nat)
    (names : List String) (ord : Order) (h : 0 < num_cols) :
    (∃ e, Table.from_vec data num_cols names = RunResult.ret e) ∧
    (∃ e, Table.from_vec_with_order data num_cols names ord = RunResult.ret e) := by
  have h0 : ¬(num_cols = 0) := by omega
  constructor
  · unfold Table.from_vec
    rw [if_neg h0]
    split
    · exact ⟨_, rfl⟩
    · split
      · exact ⟨_, rfl⟩
      · exact ⟨_, rfl⟩
  · unfold Table.from_vec_with_order
    rw [if_neg h0]
    split
    · exact ⟨_, rfl⟩
    · exact ⟨_, rfl⟩

/-- C5 witness: the amended theorem applied at a concrete input. -/
theorem C5_no_panic_witness :
    (∃ e, Table.from_vec [1, 2] 2 ["a", "b"] = RunResult.ret e) ∧
    (∃ e, Table.from_vec_with_order [1, 2] 2 ["a", "b"] Order.RowMajor = RunResult.ret e) :=
  C5_no_panic [1, 2] 2 ["a", "b"] Order.RowMajor (by decide)

/-- C6.  For every table satisfying the length invariant and every in-range
coordinate `(r, c)`, `set(r, c, v)` returns `Some` of the value previously
stored at `(r, c)` (the value `get(r, c)` reads), and `get(r, c)` on the
updated table returns `v` — under both `RowMajor` and `ColumnMajor` order. -/
theorem C6_set_then_get {α : Type} (t : Table α) (r c : Nat) (v : α)
    (hwf : t.data.length = t.num_cols * t.num_rows)
    (hr : r < t.num_rows) (hc : c < t.num_cols) :
    ∃ old t2, t.set r c v = RunResult.ret (some old, t2) ∧
      t.get r c = RunResult.ret (some old) ∧
      t2.get r c = RunResult.ret (some v) := by
  have hguard : ¬(r ≥ t.num_rows ∨ c ≥ t.num_cols) := by omega
  have hidx : (if t.order = Order.RowMajor then r * t.num_cols else r) +
      (if t.order = Order.RowMajor then c else c * t.num_rows) < t.data.length := by
    rw [hwf]
    exact offset_lt_of_lt t.order hr hc
  refine ⟨t.data[(if t.order = Order.RowMajor then r * t.num_cols else r) +
      (if t.order = Order.RowMajor then c else c * t.num_rows)],
    { t with data := t.data.set ((if t.order = Order.RowMajor then r * t.num_cols else r) +
      (if t.order = Order.RowMajor then c else c * t.num_rows)) v }, ?_, ?_, ?_⟩
  · simp only [Table.set]
    rw [if_neg hguard, List.getElem?_eq_getElem hidx]
  · simp only [Table.get]
    rw [if_neg hguard, List.getElem?_eq_getElem hidx]
  · simp only [Table.get]
    rw [if_neg hguard, List.getElem?_set_eq_of_lt v hidx]

/-- C6 witness: the round trip evaluated on the concrete `3 × 2` table. -/
theorem C6_set_then_get_witness :
    ∃ old t2, tC1.set 1 2 99 = RunResult.ret (some old, t2) ∧
      tC1.get 1 2 = RunResult.ret (some old) ∧
      t2.get 1 2 = RunResult.ret (some 99) :=
  C6_set_then_get tC1 1 2 99 (by decide) (by decide) (by decide)

/-- C7.  `transpose()` flips `order` and swaps `num_cols` with `num_rows`
while leaving `data`, `col_names` and `descriptions` unchanged, and applying
it twice restores the table exactly (order, dimensions and buffer). -/
theorem C7_transpose_frame {α : Type} (t : Table α) :
    t.transpose.order = t.order.swap ∧
    t.transpose.num_cols = t.num_rows ∧
    t.transpose.num_rows = t.num_cols ∧
    t.transpose.data = t.data ∧
    t.transpose.col_names = t.col_names ∧
    t.transpose.descriptions = t.descriptions ∧
    t.transpose.transpose = t := by
  obtain ⟨cn, ds, d, nc, nr, o⟩ := t
  cases o <;> simp [Table.transpose, Order.swap]

/-- C8.  On a row-major table with the length invariant, pushing a row of
length `num_cols` and then removing the row at the old `num_rows` index
returns `Some` of that row and restores the table exactly (same `num_rows`,
same `data`). -/
theorem C8_push_then_remove_row {α : Type} (t : Table α) (row_data : List α)
    (hord : t.order = Order.RowMajor)
    (hlen : row_data.length = t.num_cols)
    (hwf : t.data.length = t.num_cols * t.num_rows) :
    ∃ t2, t.push_row row_data = Except.ok t2 ∧
      t2.remove_row t.num_rows = RunResult.ret (some row_data, t) := by
  obtain ⟨cn, ds, d, nc, nr, o⟩ := t
  dsimp only at hord hlen hwf
  subst hord
  refine ⟨{ col_names := cn, descriptions := ds, data := d ++ row_data,
            num_cols := nc, num_rows := nr + 1, order := Order.RowMajor }, ?_, ?_⟩
  · simp only [Table.push_row]
    rw [if_neg (by omega)]
  · simp only [Table.remove_row]
    rw [if_neg (by omega)]
    simp only [if_true]
    have hstart : nr * nc = d.length := by
      rw [hwf]
      exact Nat.mul_comm nr nc
    have hend : nr * nc + nc = (d ++ row_data).length := by
      rw [List.length_append, hlen, ← hstart]
    rw [sliceIdx_ret (Nat.le_add_right _ _) (Nat.le_of_eq hend)]
    rw [hend, List.take_length, hstart, List.drop_left, List.drop_length, List.take_left]
    simp

/-- C8 witness: the push/remove round trip on the concrete `3 × 2` table. -/
theorem C8_push_then_remove_row_witness :
    ∃ t2, tC1.push_row [7, 8, 9] = Except.ok t2 ∧
      t2.remove_row tC1.num_rows = RunResult.ret (some [7, 8, 9], tC1) :=
  C8_push_then_remove_row tC1 [7, 8, 9] (by decide) (by decide) (by decide)

/-- C9 counterexample.  The claim quantifies over every `num_cols` with
`data.len() % num_cols == 0`; at `num_cols = 0` (where `0 % 0 = 0` holds for
the mathematical `%`) the constructor does not succeed — it panics on the
divisor-zero `%`. -/
theorem C9_counterexample :
    List.length ([] : List Nat) % 0 = 0 ∧
    Table.from_vec_with_order ([] : List Nat) 0 ["x"] Order.RowMajor = RunResult.panicked := by
  decide

/-- C9 (amended).  For every `num_cols ≥ 1` with `data.len() % num_cols == 0`,
`from_vec_with_order` succeeds for a `col_names` vector of any length (no
name-count validation), while `from_vec` and `new_sized` fail with
`InvalidNumberOfColumnNames` whenever `col_names.len() != num_cols`. -/
theorem C9_no_name_check {α : Type} [Inhabited α] (data : List α) (num_cols : Nat)
    (names : List String) (ord : Order)
    (h0 : 0 < num_cols) (hdiv : data.length % num_cols = 0) :
    (∃ t, Table.from_vec_with_order data num_cols names ord = RunResult.ret (Except.ok t)) ∧
    (names.length ≠ num_cols →
      Table.from_vec data num_cols names =
        RunResult.ret (Except.error TableError.InvalidNumberOfColumnNames) ∧
      ∀ num_rows : Nat,
        (Table.new_sized num_cols num_rows names : Except TableError (Table α)) =
          Except.error TableError.InvalidNumberOfColumnNames) := by
  have h0ne : ¬(num_cols = 0) := by omega
  have hdiv2 : ¬(data.length % num_cols ≠ 0) := by omega
  constructor
  · unfold Table.from_vec_with_order
    rw [if_neg h0ne, if_neg hdiv2]
    exact ⟨_, rfl⟩
  · intro hne
    constructor
    · unfold Table.from_vec
      rw [if_neg h0ne, if_neg hdiv2, if_pos hne]
    · intro nrows
      unfold Table.new_sized
      rw [if_pos hne]

/-- C9 witness: the amended theorem at a concrete mismatched name vector. -/
theorem C9_no_name_check_witness :
    (∃ t, Table.from_vec_with_order [1, 2] 2 ["a"] Order.RowMajor =
        RunResult.ret (Except.ok t)) ∧
    ((["a"] : List String).length ≠ 2 →
      Table.from_vec [1, 2] 2 ["a"] =
        RunResult.ret (Except.error TableError.InvalidNumberOfColumnNames) ∧
      ∀ num_rows : Nat,
        (Table.new_sized 2 num_rows ["a"] : Except TableError (Table Nat)) =
          Except.error TableError.InvalidNumberOfColumnNames) :=
  C9_no_name_check [1, 2] 2 ["a"] Order.RowMajor (by decide) (by decide)

/-- C10 counterexample.  The claim fails on a structurally valid degenerate
table: `new_sized(3, 0, ["a","b","c"])` yields a table with
`data.len() = 0 = num_cols * num_rows`, yet `col(1)` — an in-range column
index — panics, because in `RowMajor` order the unscaled slice
`data[1..1]` starts past the end of the empty buffer. -/
theorem C10_counterexample :
    (Table.new_sized 3 0 ["a", "b", "c"] : Except TableError (Table Nat)) = Except.ok tC10 ∧
    tC10.data.length = tC10.num_cols * tC10.num_rows ∧
    1 < tC10.num_cols ∧
    tC10.col 1 = RunResult.panicked := by decide

/-- C10 (amended).  For every table satisfying the length invariant with
`num_rows ≥ 1` and `num_cols ≥ 1`, the checked accessors `row`, `col` and
`get` return `Some` without panicking at every in-range index, under both
layouts — even where the slice does not correspond to the logical row or
column requested. -/
theorem C10_checked_access_safe {α : Type} (t : Table α) (r c : Nat)
    (hwf : t.data.length = t.num_cols * t.num_rows)
    (hnr : 1 ≤ t.num_rows) (hnc : 1 ≤ t.num_cols) :
    (r < t.num_rows → ∃ xs, t.row r = RunResult.ret (some xs)) ∧
    (c < t.num_cols → ∃ xs, t.col c = RunResult.ret (some xs)) ∧
    (r < t.num_rows → c < t.num_cols → ∃ v, t.get r c = RunResult.ret (some v)) := by
  refine ⟨fun hr => ?_, fun hc => ?_, fun hr hc => ?_⟩
  · have hbound : (if t.order = Order.RowMajor then r * t.num_cols else r) + t.num_cols ≤
        t.data.length := by
      rw [hwf]
      cases horder : t.order with
      | RowMajor => simpa [Nat.mul_comm] using scaled_window_le t.num_cols hr
      | ColumnMajor => simpa [Nat.mul_comm] using unscaled_window_le hr hnc
    simp only [Table.row]
    rw [if_neg (by omega), sliceIdx_ret (Nat.le_add_right _ _) hbound]
    exact ⟨_, rfl⟩
  · have hbound : (if t.order = Order.ColumnMajor then c * t.num_rows else c) + t.num_rows ≤
        t.data.length := by
      rw [hwf]
      cases horder : t.order with
      | RowMajor => simpa [Nat.mul_comm] using unscaled_window_le hc hnr
      | ColumnMajor => simpa [Nat.mul_comm] using scaled_window_le t.num_rows hc
    simp only [Table.col]
    rw [if_neg (by omega), sliceIdx_ret (Nat.le_add_right _ _) hbound]
    exact ⟨_, rfl⟩
  · have hidx : (if t.order = Order.RowMajor then r * t.num_cols else r) +
        (if t.order = Order.RowMajor then c else c * t.num_rows) < t.data.length := by
      rw [hwf]
      exact offset_lt_of_lt t.order hr hc
    simp only [Table.get]
    rw [if_neg (by omega), List.getElem?_eq_getElem hidx]
    exact ⟨_, rfl⟩

/-- C10 witness: the amended theorem evaluated on the concrete `3 × 2`
table. -/
theorem C10_checked_access_safe_witness :
    (1 < tC1.num_rows → ∃ xs, tC1.row 1 = RunResult.ret (some xs)) ∧
    (2 < tC1.num_cols → ∃ xs, tC1.col 2 = RunResult.ret (some xs)) ∧
    (1 < tC1.num_rows → 2 < tC1.num_cols → ∃ v, tC1.get 1 2 = RunResult.ret (some v)) :=
  C10_checked_access_safe tC1 1 2 (by decide) (by decide) (by decide)
